import Mathlib

/-!
Shallow embedding of the JEXI Quantum-AI Password Generator core (src/main.py).

Strings are modelled as `List Char` (`Str`); the Python character-class
predicates `str.isalpha`, `str.isdigit`, `str.isalnum` are modelled over the
ASCII fragment via `Char.isAlpha`, `Char.isDigit`, `Char.isAlphanum`, keeping
Python's convention that the empty string fails all three.  Python float
arithmetic in the complexity score is modelled over `ℚ`; Python's
`ZeroDivisionError` is modelled by a fallible division returning `Option ℚ`.
Randomness (`random.SystemRandom`) is modelled by explicit oracles passed as
arguments: a sampling oracle for `rng.sample` and choice indices for
`rng.choice`.
-/

/-- A Python string, modelled as its list of characters. -/
abbrev Str := List Char

/-- Python `str.isalpha`: non-empty and every character alphabetic. -/
def pyIsAlpha (s : Str) : Bool := !s.isEmpty && s.all Char.isAlpha

/-- Python `str.isdigit`: non-empty and every character a digit. -/
def pyIsDigit (s : Str) : Bool := !s.isEmpty && s.all Char.isDigit

/-- Python `str.isalnum`: non-empty and every character alphanumeric. -/
def pyIsAlnum (s : Str) : Bool := !s.isEmpty && s.all Char.isAlphanum

/-- The three classified ingredient categories built by
`QuantumChef._organize_ingredients` (src/main.py:109-115). -/
structure Components where
  words : List Str
  numbers : List Str
  specials : List Str
deriving DecidableEq, Repr

/-- `QuantumChef._organize_ingredients` (src/main.py:109-115):
`words = [x for x in items if x.isalpha()]`,
`numbers = [x for x in items if x.isdigit()]`,
`specials = [x for x in items if not x.isalnum()]`. -/
def organize_ingredients (items : List Str) : Components where
  words := items.filter pyIsAlpha
  numbers := items.filter pyIsDigit
  specials := items.filter (fun x => !pyIsAlnum x)

/-- The per-element component type returned by `QuantumChef._get_type`. -/
inductive TokenType where
  | num
  | spec
  | word
deriving DecidableEq, Repr

/-- `QuantumChef._get_type` (src/main.py:139-143): digit-only tokens are
`num`, non-alphanumeric tokens are `spec`, everything else is `word`. -/
def get_type (item : Str) : TokenType :=
  if pyIsDigit item then .num
  else if !pyIsAlnum item then .spec
  else .word

/-- `QuantumChef._is_memorable` (src/main.py:134-137): the combo is kept iff
no two adjacent elements have the same `_get_type` type. -/
def is_memorable (combo : List Str) : Bool :=
  let type_seq := combo.map get_type
  !((type_seq.zip type_seq.tail).any (fun p => p.1 == p.2))

/-- Does `hay` start with `pat`?  Executable model of the base case of
Python's substring scan. -/
def startsWithTok : Str → Str → Bool
  | _, [] => true
  | [], _ :: _ => false
  | h :: hs, p :: ps => h == p && startsWithTok hs ps

/-- Python's `pat in hay` substring containment on strings. -/
def containsSub : Str → Str → Bool
  | hay, pat =>
    startsWithTok hay pat ||
      match hay with
      | [] => false
      | _ :: t => containsSub t pat

/-- The fixed weak-substring list of `SemanticAnalyzer.__init__`
(src/main.py:81-83). -/
def common_patterns : List Str :=
  ["123".toList, "qwerty".toList, "password".toList, "admin".toList,
   "welcome".toList, "111".toList, "abc".toList]

/-- `SemanticAnalyzer.is_common_pattern` (src/main.py:85-88): lowercase the
candidate and test membership of any fixed weak substring. -/
def is_common_pattern (pw : Str) : Bool :=
  let pw_lower := pw.map Char.toLower
  common_patterns.any (fun p => containsSub pw_lower p)

/-- Python `/` on floats, modelled over `ℚ`; raises `ZeroDivisionError`
(modelled as `none`) when the denominator is zero. -/
def pyDiv (a b : ℚ) : Option ℚ := if b = 0 then none else some (a / b)

/-- `SemanticAnalyzer.calculate_complexity` (src/main.py:90-97).  The
diversity term `len(set(password)) / len(password)` uses the fallible
division, so the empty candidate yields `none` (a `ZeroDivisionError`). -/
def calculate_complexity (password : Str) : Option ℚ := do
  let length : ℚ := min ((password.length : ℚ) / 15) 1
  let diversity ← pyDiv (password.dedup.length : ℚ) (password.length : ℚ)
  let upper : ℚ := if password.any Char.isUpper then 1/5 else 0
  let special : ℚ := if password.any (fun c => !c.isAlphanum) then 1/5 else 0
  let pattern : ℚ := if is_common_pattern password then 0 else 3/10
  return length + diversity + upper + special + pattern

/-- The five-component sum exactly as the specification words it (§4.2):
length, diversity, uppercase bonus, special bonus, pattern bonus.  Used to
compare the source's `calculate_complexity` against the spec's formula. -/
def scoreSpec (s : Str) : ℚ :=
  min ((s.length : ℚ) / 15) 1
    + (s.dedup.length : ℚ) / (s.length : ℚ)
    + (if s.any Char.isUpper then 1/5 else 0)
    + (if s.any (fun c => !c.isAlphanum) then 1/5 else 0)
    + (if is_common_pattern s then 0 else 3/10)

/-- Helper for `pyTitle`: the flag records whether the previous character was
cased (alphabetic, in the ASCII model). -/
def pyTitleGo : Bool → Str → Str
  | _, [] => []
  | prevCased, c :: cs =>
    (if c.isAlpha then (if prevCased then c.toLower else c.toUpper) else c)
      :: pyTitleGo c.isAlpha cs

/-- Python `str.title()` over the ASCII model: the first letter after a
non-letter is uppercased, subsequent letters are lowercased. -/
def pyTitle (s : Str) : Str := pyTitleGo false s

/-- The element pool of `QuantumChef._create_quantum_mix`
(src/main.py:119-123): `words * 2 + numbers + specials`. -/
def elementsPool (items : List Str) : List Str :=
  let c := organize_ingredients items
  c.words ++ c.words ++ c.numbers ++ c.specials

/-- `QuantumChef._cook_combo` (src/main.py:145-154): one of five transforms
chosen by `rng.choice`, modelled by the index `choice`. -/
def cook_combo (choice : Nat) (combo : List Str) : Str :=
  match choice with
  | 0 => pyTitle combo.flatten
  | 1 => (combo.flatten).map Char.toUpper
  | 2 => List.intercalate ['-'] combo
  | 3 => List.intercalate ['_'] combo
  | _ => combo.flatten

/-- `QuantumChef._create_quantum_mix` (src/main.py:117-132).  The outer loop
runs `mix_length` over `range(2, min(4, len(elements)))`; each iteration makes
`5 * mix_length` attempts; `rng.sample(elements, mix_length)` is modelled by
the oracle `sample mix_length t` (the `ValueError` branch is unreachable here
because `mix_length < len(elements)` always holds); memorable combos are
cooked (with transform index `cookChoice mix_length t`) and appended. -/
def create_quantum_mix (items : List Str) (sample : Nat → Nat → List Str)
    (cookChoice : Nat → Nat → Nat) : List Str :=
  let elements := elementsPool items
  (List.range' 2 (min 4 elements.length - 2)).flatMap (fun mix_length =>
    (List.range (5 * mix_length)).filterMap (fun t =>
      let combo := sample mix_length t
      if is_memorable combo then some (cook_combo (cookChoice mix_length t) combo)
      else none))

/-- `QuantumChef.bake_password` (src/main.py:177-184) up to the point where
the base candidate is popped from the combo buffer: refill the buffer if it
is empty, then `popleft`.  `none` models the `IndexError` raised by
`popleft` on an empty deque; the later spice/AI-enhancement stages operate on
the popped base and cannot rescue this failure. -/
def bake_base (combo_brew : List Str) (items : List Str)
    (sample : Nat → Nat → List Str) (cookChoice : Nat → Nat → Nat) :
    Option (Str × List Str) :=
  let brew := if combo_brew.isEmpty then create_quantum_mix items sample cookChoice
              else combo_brew
  match brew with
  | [] => none
  | b :: rest => some (b, rest)

/-- Python `random.choice(l)`, modelled with an explicit index oracle `i`;
on an empty list the call raises (`none`). -/
def pyChoice {α : Type} (l : List α) (i : Nat) : Option α := l.get? i

/-- `QuantumChef._add_quantum_spice` (src/main.py:156-164): one of four
enhancements chosen by `rng.choice` (modelled by the index `enh`); the
numeric-append enhancement draws from `numbers` with `rng.choice` (index
`pick`), which raises — `none` — whenever `numbers` is empty. -/
def add_quantum_spice (numbers : List Str) (enh pick : Nat)
    (password : Str) : Option Str :=
  match enh with
  | 0 => (pyChoice numbers pick).map (fun n => password ++ n)
  | 1 => (pyChoice ['!', '@', '#'] pick).map (fun c => c :: password)
  | 2 => (pyChoice ['-', '_', '~'] pick).map (fun c =>
      password.take (password.length / 2) ++ c :: password.drop (password.length / 2))
  | _ => some password

/-- The body of `AIPasswordOptimizer.suggest_variations` (src/main.py:69-76)
before the `except` clause.  The external sklearn vectorizer transform and
nearest-neighbour lookup are modelled by the fallible oracle `lookup`
returning neighbour indices; an untrained model (fewer than 2 dictionary
entries, `_train_similarity_model` returns early at src/main.py:63) makes the
lookup raise, i.e. return `none`.  The indexing `self.dictionary[i]` is
fallible as well. -/
def suggest_variations_body (dictionary : List Str)
    (lookup : Str → Option (List Nat)) (base_word : Str) : Option (List Str) := do
  let indices ← lookup base_word
  indices.mapM (fun i => dictionary.get? i)

/-- `AIPasswordOptimizer.suggest_variations` (src/main.py:69-76): the bare
`except` turns any failure of the body into the empty list. -/
def suggest_variations (dictionary : List Str)
    (lookup : Str → Option (List Nat)) (base_word : Str) : List Str :=
  match suggest_variations_body dictionary lookup base_word with
  | some vs => vs
  | none => []

/-! ## Helper lemmas -/

/-- No ASCII character is both alphabetic and a digit. -/
theorem char_not_alpha_and_digit (c : Char) (h1 : c.isAlpha = true)
    (h2 : c.isDigit = true) : False := by
  simp only [Char.isAlpha, Char.isUpper, Char.isLower, Char.isDigit, Bool.or_eq_true,
    Bool.and_eq_true, decide_eq_true_eq, ge_iff_le, UInt32.le_def, BitVec.le_def,
    show ((48:UInt32).toBitVec).toNat = 48 from rfl,
    show ((57:UInt32).toBitVec).toNat = 57 from rfl,
    show ((65:UInt32).toBitVec).toNat = 65 from rfl,
    show ((90:UInt32).toBitVec).toNat = 90 from rfl,
    show ((97:UInt32).toBitVec).toNat = 97 from rfl,
    show ((122:UInt32).toBitVec).toNat = 122 from rfl] at h1 h2
  omega

/-- An alphabetic character is alphanumeric. -/
theorem char_alpha_alnum (c : Char) (h : c.isAlpha = true) :
    c.isAlphanum = true := by
  simp [Char.isAlphanum, h]

/-- A digit character is alphanumeric. -/
theorem char_digit_alnum (c : Char) (h : c.isDigit = true) :
    c.isAlphanum = true := by
  simp [Char.isAlphanum, h]

/-- `startsWithTok` decides the existence of a suffix completing `pat` to
`hay`. -/
theorem startsWithTok_iff (hay pat : Str) :
    startsWithTok hay pat = true ↔ ∃ r, hay = pat ++ r := by
  induction pat generalizing hay with
  | nil => simp [startsWithTok]
  | cons p ps ih =>
    cases hay with
    | nil => simp [startsWithTok]
    | cons h hs =>
      simp only [startsWithTok, Bool.and_eq_true, beq_iff_eq, ih,
        List.cons_append, List.cons.injEq]
      constructor
      · rintro ⟨rfl, r, rfl⟩; exact ⟨r, rfl, rfl⟩
      · rintro ⟨r, rfl, rfl⟩; exact ⟨rfl, r, rfl⟩

/-- `containsSub` decides substring containment, exactly Python's `in`. -/
theorem containsSub_iff (hay pat : Str) :
    containsSub hay pat = true ↔ ∃ l r, hay = l ++ (pat ++ r) := by
  induction hay with
  | nil =>
    simp only [containsSub, Bool.or_eq_true, startsWithTok_iff]
    constructor
    · rintro (⟨r, hr⟩ | h)
      · exact ⟨[], r, by simpa using hr⟩
      · cases h
    · rintro ⟨l, r, hr⟩
      cases l with
      | nil => exact Or.inl ⟨r, by simpa using hr⟩
      | cons x xs => simp at hr
  | cons h t ih =>
    simp only [containsSub, Bool.or_eq_true, startsWithTok_iff, ih]
    constructor
    · rintro (⟨r, hr⟩ | ⟨l, r, hr⟩)
      · exact ⟨[], r, by simpa using hr⟩
      · exact ⟨h :: l, r, by simp [hr]⟩
    · rintro ⟨l, r, hr⟩
      cases l with
      | nil => exact Or.inl ⟨r, by simpa using hr⟩
      | cons x xs =>
        simp only [List.cons_append, List.cons.injEq] at hr
        exact Or.inr ⟨xs, r, hr.2⟩

/-- Computation rule for `is_memorable` on a list with at least two
elements. -/
theorem is_memorable_cons₂ (x y : Str) (rest : List Str) :
    is_memorable (x :: y :: rest) =
      (!(get_type x == get_type y) && is_memorable (y :: rest)) := by
  simp [is_memorable, Bool.not_or]

/-- `is_memorable` characterised: it is false exactly when some adjacent pair
shares a `get_type` category. -/
theorem is_memorable_false_iff (combo : List Str) :
    is_memorable combo = false ↔
      ∃ l a b r, combo = l ++ a :: b :: r ∧ get_type a = get_type b := by
  induction combo with
  | nil =>
    constructor
    · intro h; exact absurd h (by decide)
    · rintro ⟨l, a, b, r, hl, -⟩
      apply_fun List.length at hl; simp at hl; omega
  | cons x tail ih =>
    cases tail with
    | nil =>
      constructor
      · intro h; exact absurd h (by simp [is_memorable])
      · rintro ⟨l, a, b, r, hl, -⟩
        apply_fun List.length at hl; simp at hl; omega
    | cons y rest =>
      rw [is_memorable_cons₂]
      simp only [Bool.and_eq_false_iff, Bool.not_eq_false', beq_iff_eq, ih]
      constructor
      · rintro (hxy | ⟨l, a, b, r, hl, hab⟩)
        · exact ⟨[], x, y, rest, rfl, hxy⟩
        · exact ⟨x :: l, a, b, r, by simp [hl], hab⟩
      · rintro ⟨l, a, b, r, hl, hab⟩
        cases l with
        | nil =>
          simp only [List.nil_append, List.cons.injEq] at hl
          obtain ⟨rfl, rfl, -⟩ := hl
          exact Or.inl hab
        | cons u us =>
          simp only [List.cons_append, List.cons.injEq] at hl
          exact Or.inr ⟨us, a, b, r, hl.2, hab⟩

/-! ## Claims -/

/-- C6: `is_common_pattern` holds iff the lowercase form of the candidate
contains one of the seven fixed weak substrings (substring containment, not
exact match); in particular it accepts "Summer123!" and rejects
"Xk9#mQ2z". -/
theorem C6_common_pattern_characterization :
    (∀ pw : Str, is_common_pattern pw = true ↔
      ∃ p ∈ common_patterns, ∃ l r, pw.map Char.toLower = l ++ (p ++ r)) ∧
    is_common_pattern "Summer123!".toList = true ∧
    is_common_pattern "Xk9#mQ2z".toList = false := by
  refine ⟨fun pw => ?_, by decide, by decide⟩
  simp [is_common_pattern, List.any_eq_true, containsSub_iff]

/-- C7: `is_memorable` rejects a combination iff some pair of adjacent
elements shares the same per-element `get_type` category; in particular
["cat","dog"] is rejected and ["cat","7","!"] is accepted. -/
theorem C7_memorable_characterization :
    (∀ combo : List Str, is_memorable combo = false ↔
      ∃ l a b r, combo = l ++ a :: b :: r ∧ get_type a = get_type b) ∧
    is_memorable ["cat".toList, "dog".toList] = false ∧
    is_memorable ["cat".toList, "7".toList, "!".toList] = true :=
  ⟨is_memorable_false_iff, by decide, by decide⟩

/-- A token cannot be purely alphabetic and purely numeric at once. -/
theorem pyIsAlpha_not_pyIsDigit (x : Str) (ha : pyIsAlpha x = true)
    (hd : pyIsDigit x = true) : False := by
  cases x with
  | nil => simp [pyIsAlpha] at ha
  | cons c cs =>
    simp only [pyIsAlpha, List.all_cons, Bool.and_eq_true] at ha
    simp only [pyIsDigit, List.all_cons, Bool.and_eq_true] at hd
    exact char_not_alpha_and_digit c ha.2.1 hd.2.1

/-- A purely alphabetic token is purely alphanumeric. -/
theorem pyIsAlpha_pyIsAlnum (x : Str) (ha : pyIsAlpha x = true) :
    pyIsAlnum x = true := by
  simp only [pyIsAlpha, Bool.and_eq_true, List.all_eq_true] at ha
  simp only [pyIsAlnum, Bool.and_eq_true, List.all_eq_true]
  exact ⟨ha.1, fun c hc => char_alpha_alnum c (ha.2 c hc)⟩

/-- A purely numeric token is purely alphanumeric. -/
theorem pyIsDigit_pyIsAlnum (x : Str) (hd : pyIsDigit x = true) :
    pyIsAlnum x = true := by
  simp only [pyIsDigit, Bool.and_eq_true, List.all_eq_true] at hd
  simp only [pyIsAlnum, Bool.and_eq_true, List.all_eq_true]
  exact ⟨hd.1, fun c hc => char_digit_alnum c (hd.2 c hc)⟩

/-- C8: for ingredient lists of non-empty tokens, the three classified sets
are pairwise disjoint and each is a subset of the original list. -/
theorem C8_classification_disjoint_subset (items : List Str)
    (_h : ∀ x ∈ items, x ≠ []) :
    (∀ x, x ∈ (organize_ingredients items).words →
      x ∉ (organize_ingredients items).numbers) ∧
    (∀ x, x ∈ (organize_ingredients items).words →
      x ∉ (organize_ingredients items).specials) ∧
    (∀ x, x ∈ (organize_ingredients items).numbers →
      x ∉ (organize_ingredients items).specials) ∧
    (∀ x, x ∈ (organize_ingredients items).words → x ∈ items) ∧
    (∀ x, x ∈ (organize_ingredients items).numbers → x ∈ items) ∧
    (∀ x, x ∈ (organize_ingredients items).specials → x ∈ items) := by
  refine ⟨fun x hw hn => ?_, fun x hw hs => ?_, fun x hn hs => ?_,
    fun x hw => (List.mem_filter.1 hw).1, fun x hn => (List.mem_filter.1 hn).1,
    fun x hs => (List.mem_filter.1 hs).1⟩
  · exact pyIsAlpha_not_pyIsDigit x (List.mem_filter.1 hw).2 (List.mem_filter.1 hn).2
  · have := pyIsAlpha_pyIsAlnum x (List.mem_filter.1 hw).2
    have hflt := (List.mem_filter.1 hs).2
    rw [this] at hflt
    exact absurd hflt (by decide)
  · have := pyIsDigit_pyIsAlnum x (List.mem_filter.1 hn).2
    have hflt := (List.mem_filter.1 hs).2
    rw [this] at hflt
    exact absurd hflt (by decide)

/-- Witness for C8 at the concrete list ["cat", "42", "!"]. -/
theorem C8_classification_disjoint_subset_witness :
    "cat".toList ∉ (organize_ingredients
      ["cat".toList, "42".toList, "!".toList]).numbers :=
  (C8_classification_disjoint_subset
      ["cat".toList, "42".toList, "!".toList] (by decide)).1
    "cat".toList (by decide)

/-- C10: the empty token is classified into `specials` only, and its
per-element type is `spec`. -/
theorem C10_empty_token (items : List Str) (h : ([] : Str) ∈ items) :
    ([] : Str) ∈ (organize_ingredients items).specials ∧
    ([] : Str) ∉ (organize_ingredients items).words ∧
    ([] : Str) ∉ (organize_ingredients items).numbers ∧
    get_type [] = TokenType.spec := by
  refine ⟨List.mem_filter.2 ⟨h, by decide⟩, fun hw => ?_, fun hn => ?_, by decide⟩
  · exact absurd (List.mem_filter.1 hw).2 (by decide)
  · exact absurd (List.mem_filter.1 hn).2 (by decide)

/-- Witness for C10 at the concrete list ["", "a"]. -/
theorem C10_empty_token_witness :
    ([] : Str) ∈ (organize_ingredients [([] : Str), "a".toList]).specials ∧
    ([] : Str) ∉ (organize_ingredients [([] : Str), "a".toList]).words ∧
    ([] : Str) ∉ (organize_ingredients [([] : Str), "a".toList]).numbers ∧
    get_type [] = TokenType.spec :=
  C10_empty_token [([] : Str), "a".toList] (by decide)

/-- C2 fails on the code: the mixed token "a!" is placed into `specials`
(not excluded), and it contains the alphanumeric character 'a'. -/
theorem C2_counterexample :
    ['a', '!'] ∈ (organize_ingredients [['a', '!']]).specials ∧
    'a' ∈ (['a', '!'] : Str) ∧ Char.isAlphanum 'a' = true := by decide

/-- C2 amended: a non-empty token is classified into `specials` exactly when
it contains at least one non-alphanumeric character; mixed tokens with a
symbol, such as "a!", therefore land in `specials` rather than being
excluded. -/
theorem C2_specials_amended (items : List Str) (h : ∀ x ∈ items, x ≠ []) :
    ∀ x, x ∈ (organize_ingredients items).specials ↔
      x ∈ items ∧ ∃ c ∈ x, c.isAlphanum = false := by
  intro x
  constructor
  · intro hs
    obtain ⟨hmem, hflt⟩ := List.mem_filter.1 hs
    refine ⟨hmem, ?_⟩
    have hne := h x hmem
    simp only [Bool.not_eq_true', pyIsAlnum, Bool.and_eq_false_iff,
      Bool.not_eq_false, List.all_eq_false] at hflt
    rcases hflt with hemp | ⟨c, hc, hcf⟩
    · have hx : x.isEmpty = true := by simpa using hemp
      exact absurd (List.isEmpty_iff.1 hx) hne
    · exact ⟨c, hc, by simpa using hcf⟩
  · rintro ⟨hmem, c, hc, hcf⟩
    refine List.mem_filter.2 ⟨hmem, ?_⟩
    simp only [Bool.not_eq_true', pyIsAlnum, Bool.and_eq_false_iff,
      List.all_eq_false]
    exact Or.inr ⟨c, hc, by simpa using hcf⟩

/-- Witness for the amended C2 at the concrete list ["a!"]. -/
theorem C2_specials_amended_witness :
    ['a', '!'] ∈ (organize_ingredients [['a', '!']]).specials :=
  (C2_specials_amended [['a', '!']] (by decide) ['a', '!']).mpr (by decide)

/-- On non-empty candidates the source's fallible score agrees with the
spec's five-component sum `scoreSpec`. -/
theorem calculate_complexity_eq (s : Str) (hs : s ≠ []) :
    calculate_complexity s = some (scoreSpec s) := by
  have hlen : (s.length : ℚ) ≠ 0 := by
    have : 0 < s.length := List.length_pos.2 hs
    positivity
  simp [calculate_complexity, scoreSpec, pyDiv, hlen]

/-- The score `calculate_complexity ['a']` evaluates to 41/30. -/
theorem calculate_complexity_single_a :
    calculate_complexity ['a'] = some (41/30) := by
  rw [calculate_complexity_eq ['a'] (by decide)]
  norm_num [scoreSpec, show (['a'] : Str).dedup = ['a'] from by decide,
    show (['a'] : Str).any Char.isUpper = false from by decide,
    show (['a'] : Str).any (fun c => !c.isAlphanum) = false from by decide,
    show is_common_pattern ['a'] = false from by decide]

/-- C3 fails on the code: on the empty candidate, `calculate_complexity`
raises a `ZeroDivisionError` (modelled as `none`) instead of returning 0. -/
theorem C3_counterexample :
    calculate_complexity [] = none ∧ calculate_complexity [] ≠ some 0 := by
  constructor
  · simp [calculate_complexity, pyDiv]
  · simp [calculate_complexity, pyDiv]

/-- C3 amended: the score is defined (no division error) exactly on
non-empty candidates; the empty candidate propagates the division error. -/
theorem C3_score_total_iff_nonempty :
    ∀ s : Str, (calculate_complexity s).isSome = true ↔ s ≠ [] := by
  intro s
  cases s with
  | nil => simp [calculate_complexity, pyDiv]
  | cons c cs =>
    rw [calculate_complexity_eq (c :: cs) (by simp)]
    simp

/-- C4: on every non-empty candidate, the score is exactly the sum of the
five components of §4.2 (length, diversity, uppercase bonus, special bonus,
pattern bonus), as collected in `scoreSpec`. -/
theorem C4_score_five_components (s : Str) (hs : s ≠ []) :
    calculate_complexity s = some (scoreSpec s) :=
  calculate_complexity_eq s hs

/-- Witness for C4 at the fifteen-a candidate of §8:
1 + 1/15 + 0 + 0 + 3/10 = 41/30 (≈ 1.367). -/
theorem C4_score_five_components_witness :
    calculate_complexity (List.replicate 15 'a') = some (41/30) := by
  rw [C4_score_five_components (List.replicate 15 'a') (by decide)]
  norm_num [scoreSpec, show (List.replicate 15 'a').dedup = ['a'] from by decide,
    show (List.replicate 15 'a').any Char.isUpper = false from by decide,
    show (List.replicate 15 'a').any (fun c => !c.isAlphanum) = false from by decide,
    show is_common_pattern (List.replicate 15 'a') = false from by decide,
    show (List.replicate 15 'a').length = 15 from by decide]

/-- C5 fails on the code: a 15-character candidate with all-distinct
characters, an uppercase letter and a symbol, avoiding every weak pattern,
scores 27/10 = 2.7, beyond the claimed ~1.7 ceiling. -/
theorem C5_counterexample :
    calculate_complexity "KZQXJVWMBF!@#$%".toList = some (27/10) ∧
    ¬ ((27 : ℚ)/10 ≤ 17/10) := by
  constructor
  · rw [calculate_complexity_eq _ (by decide)]
    simp only [scoreSpec,
      show ("KZQXJVWMBF!@#$%".toList).dedup = "KZQXJVWMBF!@#$%".toList from by decide,
      show ("KZQXJVWMBF!@#$%".toList).any Char.isUpper = true from by decide,
      show ("KZQXJVWMBF!@#$%".toList).any (fun c => !c.isAlphanum) = true from by decide,
      show is_common_pattern "KZQXJVWMBF!@#$%".toList = false from by decide,
      show ("KZQXJVWMBF!@#$%".toList).length = 15 from by decide]
    norm_num
  · norm_num

/-- C5 amended: every defined score lies in [0, 27/10]; the bound 2.7 (one
for each of length and diversity plus the three bonuses 0.2 + 0.2 + 0.3) is
attained, so the score may exceed 1.7 but never 2.7. -/
theorem C5_score_bounds (s : Str) (q : ℚ)
    (h : calculate_complexity s = some q) : 0 ≤ q ∧ q ≤ 27/10 := by
  have hs : s ≠ [] := by
    intro hnil
    rw [hnil] at h
    simp [calculate_complexity, pyDiv] at h
  rw [calculate_complexity_eq s hs] at h
  obtain rfl : scoreSpec s = q := Option.some.injEq _ _ ▸ h
  have hlen : (0 : ℚ) < s.length := by
    exact_mod_cast List.length_pos.2 hs
  have hmin1 : min ((s.length : ℚ) / 15) 1 ≤ 1 := min_le_right _ _
  have hmin0 : 0 ≤ min ((s.length : ℚ) / 15) 1 := le_min (by positivity) (by norm_num)
  have hdiv1 : (s.dedup.length : ℚ) / s.length ≤ 1 := by
    rw [div_le_one hlen]
    exact_mod_cast (List.dedup_sublist s).length_le
  have hdiv0 : 0 ≤ (s.dedup.length : ℚ) / s.length := by positivity
  unfold scoreSpec
  constructor <;> split_ifs <;> linarith

/-- Witness for the amended C5 at the single-character candidate "a". -/
theorem C5_score_bounds_witness :
    (0 : ℚ) ≤ 41/30 ∧ (41 : ℚ)/30 ≤ 27/10 :=
  C5_score_bounds ['a'] (41/30) calculate_complexity_single_a

/-- C1 fails on the code: with ingredient list ["cat"], the classified
`words` category is non-empty, yet `bake_password` on a fresh chef fails —
the pool is ["cat","cat"], `range(2, min(4, 2))` is empty, the refill adds
nothing and `popleft` raises on the empty buffer.  (With the empty length
range the sampling oracle is never consulted, so any oracle exhibits it.) -/
theorem C1_counterexample :
    (organize_ingredients ["cat".toList]).words ≠ [] ∧
    bake_base [] ["cat".toList] (fun _ _ => []) (fun _ _ => 0) = none := by
  constructor
  · decide
  · decide

/-- C1 amended: `bake_password` can propagate an error even when a
classified category is non-empty, in two ways.  (1) The buffer stage
(refill + `popleft`) on a fresh chef fails exactly when the refill leaves
the buffer empty — when no sampled combination at any admissible length
(2 up to `min(4, poolSize)` exclusive) and attempt is memorable — which
happens regardless of randomness whenever the pool has fewer than 3
elements.  (2) Even a non-empty buffer does not ensure success: the spice
augmentation applied unconditionally to the popped base raises whenever
`numbers` is empty and the numeric-append enhancement is drawn. -/
theorem C1_bake_failure_modes (items : List Str)
    (sample : Nat → Nat → List Str) (cookChoice : Nat → Nat → Nat) :
    (bake_base [] items sample cookChoice = none ↔
      ∀ k, 2 ≤ k → k < min 4 (elementsPool items).length →
        ∀ t, t < 5 * k → is_memorable (sample k t) = false) ∧
    (∀ password : Str, ∀ pick : Nat,
      add_quantum_spice [] 0 pick password = none) := by
  constructor
  · have hmain : bake_base [] items sample cookChoice = none ↔
        create_quantum_mix items sample cookChoice = [] := by
      cases h : create_quantum_mix items sample cookChoice with
      | nil => simp [bake_base, h]
      | cons b rest => simp [bake_base, h]
    rw [hmain]
    simp only [create_quantum_mix]
    rw [List.flatMap_eq_nil_iff]
    constructor
    · intro H k h2 hk t ht
      have hmem : k ∈ List.range' 2 (min 4 (elementsPool items).length - 2) := by
        rw [List.mem_range'_1]
        omega
      have hinner := H k hmem
      rw [List.filterMap_eq_nil_iff] at hinner
      have hnone := hinner t (List.mem_range.2 ht)
      simp only [] at hnone
      cases hb : is_memorable (sample k t) with
      | false => rfl
      | true => rw [hb] at hnone; simp at hnone
    · intro H k hk
      rw [List.filterMap_eq_nil_iff]
      intro t htmem
      rw [List.mem_range'_1] at hk
      have hfalse := H k hk.1 (by omega) t (List.mem_range.1 htmem)
      simp [hfalse]
  · intro password pick
    simp [add_quantum_spice, pyChoice]

/-- Witness for the amended C1: the buffer stage fails on the single-word
list ["cat"] (pool of 2 elements, empty length loop), and the spice stage
fails on a non-empty base when `numbers` is empty and enhancement 0 is
drawn. -/
theorem C1_bake_failure_modes_witness :
    bake_base [] ["cat".toList] (fun _ _ => ([] : List Str)) (fun _ _ => 0) = none ∧
    add_quantum_spice [] 0 0 "CatDog".toList = none := by
  constructor
  · exact (C1_bake_failure_modes ["cat".toList] (fun _ _ => ([] : List Str))
      (fun _ _ => 0)).1.mpr (by
        intro k h2 hk t ht
        rw [show (elementsPool ["cat".toList]).length = 2 from by decide] at hk
        norm_num at hk
        omega)
  · exact (C1_bake_failure_modes ["cat".toList] (fun _ _ => ([] : List Str))
      (fun _ _ => 0)).2 "CatDog".toList 0

/-- C9: the try/except in `suggest_variations` turns every failure of the
vectorize/lookup/index body into the empty list: with fewer than 2
dictionary entries (the model is untrained, so the lookup raises) the result
is empty for any query, and any failing lookup likewise gives the empty
list — no error propagates to the caller. -/
theorem C9_suggest_variations_safe (dictionary : List Str)
    (lookup : Str → Option (List Nat)) (q : Str)
    (huntrained : dictionary.length < 2 → lookup q = none) :
    (dictionary.length < 2 → suggest_variations dictionary lookup q = []) ∧
    (suggest_variations_body dictionary lookup q = none →
      suggest_variations dictionary lookup q = []) := by
  constructor
  · intro h2
    have hl := huntrained h2
    simp [suggest_variations, suggest_variations_body, hl]
  · intro hb
    simp [suggest_variations, hb]

/-- Witness for C9 with a one-entry dictionary and an always-failing
lookup. -/
theorem C9_suggest_variations_safe_witness :
    suggest_variations ["ab".toList] (fun _ => none) "xy".toList = [] :=
  (C9_suggest_variations_safe ["ab".toList] (fun _ => none) "xy".toList
    (fun _ => rfl)).1 (by decide)

